import Mathlib

/-!  Verification of the fitness-backend relay service.

The development shallowly embeds the model-selection and resilient-dispatch
pipeline of `src/server.js` (and, for the extractor, the unnamed variant
file) as executable Lean definitions: JavaScript values produced by
`JSON.parse` become the inductive `JsValue`, the string transformations of
the response extractor (`replace(/```json\s*|```/g, "")`, `trim()`,
`match(/\x7b[\s\S]*\x7d/)`) become char-list functions, and the retry
loops become fuel-indexed recursions over per-attempt outcome oracles.  -/

/-- JavaScript values as produced by JSON.parse. Numbers keep their source
lexeme; truthiness of a number is decided from its digits. -/
inductive JsValue where
  | null
  | bool (b : Bool)
  | num (lexeme : String)
  | str (s : String)
  | arr (items : List JsValue)
  | obj (fields : List (String × JsValue))

/-- Whitespace accepted between JSON tokens (RFC 8259, as JSON.parse does). -/
def jsonWsChar (c : Char) : Bool :=
  c == ' ' || c == '\t' || c == '\n' || c == '\r'

/-- Drop leading JSON whitespace. -/
def skipWs (cs : List Char) : List Char := cs.dropWhile jsonWsChar

/-- Value of one hexadecimal digit. -/
def hexVal (c : Char) : Option Nat :=
  if c.isDigit then some (c.toNat - 48)
  else if 'a' ≤ c ∧ c ≤ 'f' then some (c.toNat - 87)
  else if 'A' ≤ c ∧ c ≤ 'F' then some (c.toNat - 55)
  else none

/-- Parse the remainder of a JSON string literal (the opening quote is
already consumed), handling the escape sequences JSON.parse accepts and
rejecting raw control characters. -/
def parseStrAux : Nat → List Char → List Char → Option (String × List Char)
  | 0, _, _ => none
  | _ + 1, _, [] => none
  | fuel + 1, acc, c :: rest =>
    if c == '"' then some (String.mk acc.reverse, rest)
    else if c == '\\' then
      match rest with
      | [] => none
      | e :: rest2 =>
        if e == '"' then parseStrAux fuel ('"' :: acc) rest2
        else if e == '\\' then parseStrAux fuel ('\\' :: acc) rest2
        else if e == '/' then parseStrAux fuel ('/' :: acc) rest2
        else if e == 'b' then parseStrAux fuel (Char.ofNat 8 :: acc) rest2
        else if e == 'f' then parseStrAux fuel (Char.ofNat 12 :: acc) rest2
        else if e == 'n' then parseStrAux fuel ('\n' :: acc) rest2
        else if e == 'r' then parseStrAux fuel ('\r' :: acc) rest2
        else if e == 't' then parseStrAux fuel ('\t' :: acc) rest2
        else if e == 'u' then
          match rest2 with
          | a :: b :: c2 :: d :: rest3 =>
            match hexVal a, hexVal b, hexVal c2, hexVal d with
            | some x, some y, some z, some w =>
              parseStrAux fuel (Char.ofNat (4096 * x + 256 * y + 16 * z + w) :: acc) rest3
            | _, _, _, _ => none
          | _ => none
        else none
    else if c.toNat < 32 then none
    else parseStrAux fuel (c :: acc) rest

/-- Optional fraction part of a JSON number: lexeme part and remainder. -/
def parseFracPart (cs : List Char) : Option (List Char × List Char) :=
  match cs with
  | c :: rest =>
    if c == '.' then
      match rest with
      | d :: _ =>
        if d.isDigit then
          some (c :: rest.takeWhile Char.isDigit, rest.dropWhile Char.isDigit)
        else none
      | [] => none
    else some ([], cs)
  | [] => some ([], [])

/-- Optional exponent part of a JSON number: lexeme part and remainder. -/
def parseExpPart (cs : List Char) : Option (List Char × List Char) :=
  match cs with
  | c :: rest =>
    if c == 'e' || c == 'E' then
      let sgn : List Char × List Char :=
        match rest with
        | s :: r2 => if s == '+' || s == '-' then ([s], r2) else ([], rest)
        | [] => ([], [])
      match sgn.2 with
      | d :: _ =>
        if d.isDigit then
          some (c :: sgn.1 ++ sgn.2.takeWhile Char.isDigit, sgn.2.dropWhile Char.isDigit)
        else none
      | [] => none
    else some ([], cs)
  | [] => some ([], [])

/-- Parse a JSON number per the RFC grammar, returning its lexeme. -/
def parseNumber (cs : List Char) : Option (List Char × List Char) :=
  let signed : List Char × List Char :=
    match cs with
    | c :: rest => if c == '-' then ([c], rest) else ([], cs)
    | [] => ([], [])
  match signed.2 with
  | [] => none
  | c :: rest =>
    let intDone : Option (List Char × List Char) :=
      if c == '0' then some (signed.1 ++ [c], rest)
      else if c.isDigit then
        some (signed.1 ++ c :: rest.takeWhile Char.isDigit, rest.dropWhile Char.isDigit)
      else none
    match intDone with
    | none => none
    | some (ip, rest1) =>
      match parseFracPart rest1 with
      | none => none
      | some (fp, rest2) =>
        match parseExpPart rest2 with
        | none => none
        | some (ep, rest3) => some (ip ++ fp ++ ep, rest3)

def litTrue : List Char := ['t', 'r', 'u', 'e']
def litFalse : List Char := ['f', 'a', 'l', 's', 'e']
def litNull : List Char := ['n', 'u', 'l', 'l']

/-- Left brace character, written numerically. -/
def lbrace : Char := Char.ofNat 123

/-- Right brace character, written numerically. -/
def rbrace : Char := Char.ofNat 125

/-- When a key is assigned in a JavaScript object literal built by
JSON.parse, a repeated key keeps its first position but takes the last
value. -/
def insertField (fs : List (String × JsValue)) (k : String) (v : JsValue) :
    List (String × JsValue) :=
  if fs.any (fun p => p.1 == k) then
    fs.map (fun p => if p.1 == k then (k, v) else p)
  else fs ++ [(k, v)]

mutual

/-- Parse one JSON value (fuel-indexed; fuel strictly decreases on every
recursive call and is sized generously by the caller). -/
def parseVal : Nat → List Char → Option (JsValue × List Char)
  | 0, _ => none
  | fuel + 1, cs =>
    match skipWs cs with
    | [] => none
    | c :: rest =>
      if c == '"' then
        match parseStrAux (rest.length + 1) [] rest with
        | some (s, r) => some (.str s, r)
        | none => none
      else if c == lbrace then parseObjBody fuel rest
      else if c == '[' then parseArrBody fuel rest
      else if litTrue.isPrefixOf (c :: rest) then some (.bool true, (c :: rest).drop 4)
      else if litFalse.isPrefixOf (c :: rest) then some (.bool false, (c :: rest).drop 5)
      else if litNull.isPrefixOf (c :: rest) then some (.null, (c :: rest).drop 4)
      else
        match parseNumber (c :: rest) with
        | some (lex, r) => some (.num (String.mk lex), r)
        | none => none

/-- Parse an array body, the opening bracket already consumed. -/
def parseArrBody : Nat → List Char → Option (JsValue × List Char)
  | 0, _ => none
  | fuel + 1, cs =>
    match skipWs cs with
    | c :: rest => if c == ']' then some (.arr [], rest) else parseArrItems fuel [] cs
    | [] => none

/-- Parse the comma-separated items of a non-empty array. -/
def parseArrItems : Nat → List JsValue → List Char → Option (JsValue × List Char)
  | 0, _, _ => none
  | fuel + 1, acc, cs =>
    match parseVal fuel cs with
    | none => none
    | some (v, r) =>
      match skipWs r with
      | c :: rest =>
        if c == ',' then parseArrItems fuel (v :: acc) rest
        else if c == ']' then some (.arr (v :: acc).reverse, rest)
        else none
      | [] => none

/-- Parse an object body, the opening brace already consumed. -/
def parseObjBody : Nat → List Char → Option (JsValue × List Char)
  | 0, _ => none
  | fuel + 1, cs =>
    match skipWs cs with
    | c :: rest =>
      if c == rbrace then some (.obj [], rest) else parseObjItems fuel [] (c :: rest)
    | [] => none

/-- Parse the comma-separated members of a non-empty object. -/
def parseObjItems : Nat → List (String × JsValue) → List Char →
    Option (JsValue × List Char)
  | 0, _, _ => none
  | fuel + 1, acc, cs =>
    match skipWs cs with
    | c :: rest =>
      if c == '"' then
        match parseStrAux (rest.length + 1) [] rest with
        | some (k, r) =>
          match skipWs r with
          | c2 :: rest2 =>
            if c2 == ':' then
              match parseVal fuel rest2 with
              | some (v, r2) =>
                match skipWs r2 with
                | c3 :: rest3 =>
                  if c3 == ',' then parseObjItems fuel (insertField acc k v) rest3
                  else if c3 == rbrace then some (.obj (insertField acc k v), rest3)
                  else none
                | [] => none
              | none => none
            else none
          | [] => none
        | none => none
      else none
    | [] => none

end

/-- JSON.parse: parse the whole string as one JSON value with optional
surrounding whitespace; any leftover input is a parse error (a thrown
SyntaxError, modeled as `none`). -/
def jsonParse (s : String) : Option JsValue :=
  match parseVal (4 * s.length + 8) s.toList with
  | some (v, rest) => if (skipWs rest).isEmpty then some v else none
  | none => none

/-- JavaScript truthiness of a numeric literal lexeme: zero iff the
mantissa has no nonzero digit. -/
def numTruthy (lex : String) : Bool :=
  (lex.toList.takeWhile (fun c => c != 'e' && c != 'E')).any
    (fun c => Nat.ble 49 c.toNat && Nat.ble c.toNat 57)

/-- JavaScript truthiness of a JSON-derived value. -/
def truthy : JsValue → Bool
  | .null => false
  | .bool b => b
  | .num lex => numTruthy lex
  | .str s => !s.isEmpty
  | .arr _ => true
  | .obj _ => true

/-- Field lookup on a parsed JSON object (objects built by `insertField`
carry no duplicate keys). -/
def lookupField (fs : List (String × JsValue)) (k : String) : Option JsValue :=
  (fs.find? (fun p => p.1 == k)).map (fun p => p.2)

def keyCandidates : String := "candidates"
def keyContent : String := "content"
def keyParts : String := "parts"
def keyText : String := "text"
def keyAnalysis : String := "analysis"
def keyModels : String := "models"
def keySupported : String := "supportedGenerationMethods"
def keyName : String := "name"
def keyContents : String := "contents"
def keyError : String := "error"
def keyDetails : String := "details"
def keyAiAnswer : String := "aiAnswer"
def keyZero : String := "0"
def strGC : String := "generateContent"
def strGT : String := "generateText"

/-- Property access `v.k` on a non-nullish JavaScript value: objects look
the key up, every other value yields undefined (`none`). -/
def jsProp (k : String) : JsValue → Option JsValue
  | .obj fs => lookupField fs k
  | _ => none

/-- Index access `v[0]` on a non-nullish JavaScript value: arrays yield
their head, strings their first character, objects the property "0". -/
def jsIndex0 : JsValue → Option JsValue
  | .arr xs => xs.head?
  | .str s =>
    match s.toList with
    | [] => none
    | c :: _ => some (.str (String.mk [c]))
  | .obj fs => lookupField fs keyZero
  | _ => none

/-- One optional-chaining step `?.`: undefined or null short-circuits the
whole chain to undefined, otherwise the access is performed. -/
def chainStep (f : JsValue → Option JsValue) : Option JsValue → Option JsValue
  | none => none
  | some .null => none
  | some v => f v

/-- The nested path `data.candidates?.[0]?.content?.parts?.[0]?.text` of the
extractor (the leading access is safe because the caller has excluded a
null `data`). -/
def pathLookup (data : JsValue) : Option JsValue :=
  chainStep (jsProp keyText)
    (chainStep jsIndex0
      (chainStep (jsProp keyParts)
        (chainStep (jsProp keyContent)
          (chainStep jsIndex0 (jsProp keyCandidates data)))))

/-- The fragment `rawText = data.candidates?.[0]?.content?.parts?.[0]?.text || ""`.
A falsy or missing path value defaults to the empty string; a truthy
non-string value makes the subsequent `.replace` throw (`none`). -/
def fragString (data : JsValue) : Option String :=
  match pathLookup data with
  | none => some ""
  | some (.str s) => some s
  | some v => if truthy v then none else some ""

def fenceJson : List Char := "```json".toList
def fence3 : List Char := "```".toList

/-- Whitespace class of the JavaScript regular-expression `\s` (also the
character set removed by `String.prototype.trim`). -/
def isJsWs (c : Char) : Bool :=
  let n := c.toNat
  n == 32 || n == 9 || n == 10 || n == 13 || n == 11 || n == 12 ||
  n == 160 || n == 5760 || (Nat.ble 8192 n && Nat.ble n 8202) ||
  n == 8232 || n == 8233 || n == 8239 || n == 8287 || n == 12288 || n == 65279

/-- Left-to-right scan of `replace(/```json\s*|```/g, "")`: at each
position the seven-character alternative (with its trailing whitespace)
is tried first, then the bare fence, else one character is kept. -/
def stripFencesAux : Nat → List Char → List Char
  | 0, cs => cs
  | _ + 1, [] => []
  | fuel + 1, c :: rest =>
    if fenceJson.isPrefixOf (c :: rest) then
      stripFencesAux fuel (((c :: rest).drop 7).dropWhile isJsWs)
    else if fence3.isPrefixOf (c :: rest) then
      stripFencesAux fuel ((c :: rest).drop 3)
    else c :: stripFencesAux fuel rest

def stripFences (cs : List Char) : List Char := stripFencesAux cs.length cs

/-- The `trim()` call: strip JavaScript whitespace from both ends. -/
def jsTrim (cs : List Char) : List Char :=
  ((cs.dropWhile isJsWs).reverse.dropWhile isJsWs).reverse

/-- The `match` against a greedy first-brace-to-last-brace pattern: it
succeeds iff some left brace is followed by some right brace, and then
spans from the first left brace to the last right brace. -/
def braceMatch (cs : List Char) : Option (List Char) :=
  match cs.findIdx? (fun c => c == lbrace), cs.reverse.findIdx? (fun c => c == rbrace) with
  | some i, some jr =>
    let j := cs.length - 1 - jr
    if i < j then some ((cs.drop i).take (j - i + 1)) else none
  | _, _ => none

/-- Tail of the extractor of src/server.js: brace-substring search, inner
JSON.parse (whose failure is caught by the surrounding catch, which
returns the raw outer body), and the `.analysis || cleaned` fallback. -/
def srvExtract2 (text : String) (cleaned : List Char) : JsValue :=
  match braceMatch cleaned with
  | none => .str (String.mk cleaned)
  | some sub =>
    match jsonParse (String.mk sub) with
    | none => .str text
    | some .null => .str text
    | some sv =>
      match jsProp keyAnalysis sv with
      | none => .str (String.mk cleaned)
      | some av => if truthy av then av else .str (String.mk cleaned)

/-- Middle of the extractor of src/server.js: take the text fragment (a
truthy non-string fragment makes `.replace` throw, so the catch returns
the raw body), strip fences, trim. -/
def srvExtract1 (text : String) (data : JsValue) : JsValue :=
  match fragString data with
  | none => .str text
  | some raw => srvExtract2 text (jsTrim (stripFences raw.toList))

/-- Response extractor of src/server.js: the whole block sits in one try,
whose catch returns the raw body `text`; a null parse result throws at the
unguarded `.candidates` access. -/
def extractServer (text : String) : JsValue :=
  match jsonParse text with
  | none => .str text
  | some .null => .str text
  | some data => srvExtract1 text data

/-- Tail of the extractor of src/unnamed/part_000 (textually identical to
the server.js block). -/
def varExtract2 (text : String) (cleaned : List Char) : JsValue :=
  match braceMatch cleaned with
  | none => .str (String.mk cleaned)
  | some sub =>
    match jsonParse (String.mk sub) with
    | none => .str text
    | some .null => .str text
    | some sv =>
      match jsProp keyAnalysis sv with
      | none => .str (String.mk cleaned)
      | some av => if truthy av then av else .str (String.mk cleaned)

/-- Middle of the extractor of src/unnamed/part_000. -/
def varExtract1 (text : String) (data : JsValue) : JsValue :=
  match fragString data with
  | none => .str text
  | some raw => varExtract2 text (jsTrim (stripFences raw.toList))

/-- Response extractor of src/unnamed/part_000. -/
def extractVariant (text : String) : JsValue :=
  match jsonParse text with
  | none => .str text
  | some .null => .str text
  | some data => varExtract1 text data

def strNull : String := "null"
def strTrue : String := "true"
def strFalse : String := "false"
def strLb : String := "\x7b"
def strRb : String := "\x7d"

/-- Hexadecimal digit character (lowercase letters). -/
def hexDigit (n : Nat) : Char :=
  if Nat.blt n 10 then Char.ofNat (48 + n) else Char.ofNat (87 + n)

/-- Escaping of one character inside a JSON.stringify string value. -/
def escChar (c : Char) : List Char :=
  if c == '"' then ['\\', '"']
  else if c == '\\' then ['\\', '\\']
  else if c == '\n' then ['\\', 'n']
  else if c == '\r' then ['\\', 'r']
  else if c == '\t' then ['\\', 't']
  else if c.toNat == 8 then ['\\', 'b']
  else if c.toNat == 12 then ['\\', 'f']
  else if Nat.blt c.toNat 32 then
    ['\\', 'u', '0', '0', hexDigit (c.toNat / 16), hexDigit (c.toNat % 16)]
  else [c]

/-- Quoting of a string by JSON.stringify. -/
def quoteJson (s : String) : String :=
  String.mk ('"' :: (s.toList.map escChar).flatten ++ ['"'])

mutual

/-- JSON.stringify on a JSON-derived value (number lexemes are emitted as
parsed, an approximation of the re-serialization of the numeric value). -/
def jsStringify : JsValue → String
  | .null => strNull
  | .bool true => strTrue
  | .bool false => strFalse
  | .num lex => lex
  | .str s => quoteJson s
  | .arr xs => "[" ++ stringifyItems xs ++ "]"
  | .obj fs => strLb ++ stringifyFields fs ++ strRb

/-- Comma-separated serialization of array items. -/
def stringifyItems : List JsValue → String
  | [] => ""
  | [x] => jsStringify x
  | x :: y :: rest => jsStringify x ++ "," ++ stringifyItems (y :: rest)

/-- Comma-separated serialization of object members. -/
def stringifyFields : List (String × JsValue) → String
  | [] => ""
  | [(k, v)] => quoteJson k ++ ":" ++ jsStringify v
  | (k, v) :: f :: rest => quoteJson k ++ ":" ++ jsStringify v ++ "," ++ stringifyFields (f :: rest)

end

mutual

/-- String conversion of a template-literal interpolation `${v}` (objects
from JSON.parse have the default toString). -/
def jsToStr : JsValue → String
  | .null => strNull
  | .bool true => strTrue
  | .bool false => strFalse
  | .num lex => lex
  | .str s => s
  | .arr xs => joinElems xs
  | .obj _ => "[object Object]"

/-- The join of Array.prototype.toString: null elements become empty. -/
def joinElems : List JsValue → String
  | [] => ""
  | [.null] => ""
  | [x] => jsToStr x
  | .null :: y :: rest => "," ++ joinElems (y :: rest)
  | x :: y :: rest => jsToStr x ++ "," ++ joinElems (y :: rest)

end

/-- Template interpolation of a possibly-undefined value. -/
def jsTemplateStr : Option JsValue → String
  | none => "undefined"
  | some v => jsToStr v

/-- Outcome of one catalog fetch attempt as seen by getModels: either the
fetch (or a later await in the try block) threw, or a response with a
status and body arrived. -/
inductive FetchOutcome where
  | throwErr (message : String)
  | response (status : Nat) (body : String)

/-- The `res.ok` test: status in the 2xx-3xx success range used by fetch
(200-299). -/
def respOk (status : Nat) : Bool := Nat.ble 200 status && Nat.ble status 299

/-- One getModels attempt: non-2xx throws, the body must parse to a value
whose truthy `models` field is an array, and the success log maps `m.name`
over the models, which throws on a null element. `none` is a failed
attempt (a caught exception). -/
def attemptModels : FetchOutcome → Option (List JsValue)
  | .throwErr _ => none
  | .response status body =>
    if respOk status then
      match jsonParse body with
      | none => none
      | some .null => none
      | some data =>
        match jsProp keyModels data with
        | none => none
        | some v =>
          if truthy v then
            match v with
            | .arr xs =>
              if xs.all (fun x => match x with | .null => false | _ => true) then some xs
              else none
            | _ => none
          else none
    else none

/-- The getModels retry loop, from a given attempt number: a failed
attempt past the retry budget returns the empty list, otherwise the next
attempt runs after the fixed backoff. The second component counts the
fetch calls issued. -/
def getModelsAux (outcomes : Nat → FetchOutcome) (retries : Nat) :
    Nat → Nat → List JsValue × Nat
  | _, 0 => ([], 0)
  | attempt, fuel + 1 =>
    match attemptModels (outcomes attempt) with
    | some ms => (ms, 1)
    | none =>
      if Nat.blt retries attempt then ([], 1)
      else
        let r := getModelsAux outcomes retries (attempt + 1) fuel
        (r.1, r.2 + 1)

/-- getModels of src/server.js, attempts numbered from 1; the fuel equals
the maximal number of loop iterations. -/
def getModels (retries : Nat) (outcomes : Nat → FetchOutcome) : List JsValue × Nat :=
  getModelsAux outcomes retries 1 (retries + 1)

/-- Membership test of the generation-method allow list
`["generateContent", "generateText"].includes(method)`. -/
def isGenMethod : JsValue → Bool
  | .str s => s == strGC || s == strGT
  | _ => false

/-- The find callback
`m.supportedGenerationMethods?.some(method => [...].includes(method))`:
a null descriptor throws at the unguarded property access (`none`); a
missing or null field short-circuits to undefined (falsy); a non-array
field makes the `.some` call throw. -/
def jsQualifies : JsValue → Option Bool
  | .null => none
  | .obj fs =>
    match lookupField fs keySupported with
    | none => some false
    | some .null => some false
    | some (.arr xs) => some (xs.any isGenMethod)
    | some _ => none
  | _ => some false

/-- Array.prototype.find with a throwing callback: the first element on
which the callback throws aborts the scan (`none`); otherwise the first
qualifying element, if any, is returned. -/
def jsFind : List JsValue → Option (Option JsValue)
  | [] => some none
  | m :: rest =>
    match jsQualifies m with
    | none => none
    | some true => some (some m)
    | some false => jsFind rest

/-- The method choice
`suitableModel.supportedGenerationMethods.includes("generateContent") ? ... : ...`
(only reached on a descriptor that qualified, so the field is an array). -/
def jsMethodName (m : JsValue) : String :=
  match m with
  | .obj fs =>
    match lookupField fs keySupported with
    | some (.arr xs) => if xs.any (fun v => match v with | .str s => s == strGC | _ => false) then strGC else strGT
    | _ => strGT
  | _ => strGT

/-- The model selection of src/server.js as one operation: the find over
the catalog followed by the method choice. The outer `none` is a thrown
callback, the inner `none` the no-suitable-model case. -/
def selectModel (models : List JsValue) : Option (Option (JsValue × String)) :=
  match jsFind models with
  | none => none
  | some none => some none
  | some (some m) => some (some (m, jsMethodName m))

def urlBase : String := "https://generativelanguage.googleapis.com/v1/"

/-- Catalog endpoint URL. -/
def catalogUrl (key : String) : String := urlBase ++ "models?key=" ++ key

/-- Versioned generation endpoint URL for the selected model and method. -/
def apiUrl (modelName meth key : String) : String :=
  urlBase ++ modelName ++ ":" ++ meth ++ "?key=" ++ key

def promptHead : String := "Analyze the following user data and provide actionable fitness advice.\nRespond ONLY in JSON with a single key \"analysis\".\n\nUser Data: "
def promptMid : String := "\nExercise Data: "
def promptTail : String := "\n\nExample output:\n\x7b\n  \"analysis\": \"Your detailed fitness advice here.\"\n\x7d"

/-- The prompt template of src/server.js with both records serialized by
JSON.stringify. -/
def buildPrompt (u e : JsValue) : String :=
  promptHead ++ jsStringify u ++ promptMid ++ jsStringify e ++ promptTail

/-- The generation request body
`JSON.stringify(\x7b contents: [\x7b parts: [\x7b text: promptText \x7d] \x7d] \x7d)`. -/
def genReqBody (prompt : String) : String :=
  jsStringify (.obj [(keyContents, .arr [.obj [(keyParts, .arr [.obj [(keyText, .str prompt)]])]])])

/-- One outgoing generation request (URL and serialized body). -/
structure GenRequest where
  url : String
  body : String

/-- A network call observed by the test harness of the claim about
call counts: the catalog GET or a generation POST. -/
inductive NetCall where
  | catalogGet (url : String)
  | generatePost (req : GenRequest)

/-- Outcome of one generation attempt: the fetch (or response.text())
threw an exception carrying a name and message (an AbortError on
timeout), or a response with a status and body text arrived. -/
inductive GenOutcome where
  | throwErr (name message : String)
  | response (status : Nat) (body : String)

/-- HTTP response sent back to the caller: status plus json body fields. -/
structure JsResponse where
  status : Nat
  body : List (String × JsValue)

def errMissing : String := "Missing userData or exerciseData"
def errNoModels : String := "No models available from Gemini API"
def errNoSuitable : String := "No suitable Gemini model found"
def errGemini : String := "Gemini API returned an error"
def errRetries : String := "Gemini API request failed after retries"
def errFailed : String := "Failed to analyze data"
def nameAbort : String := "AbortError"

/-- Message of the TypeError raised when the selection callback throws;
its platform-dependent text is modeled abstractly. -/
def tyErrMsg : String := "TypeError"

/-- The dispatch retry loop of the /analyze handler, from a given attempt
number. A 2xx response runs the extractor and answers 200; a non-2xx
response past the budget echoes the upstream status; a thrown attempt past
the budget answers 504; otherwise the next attempt runs after the fixed
backoff. The call list records every POST issued. -/
def dispatchFrom (maxAttempts : Nat) (url prompt : String) (gen : Nat → GenOutcome) :
    Nat → Nat → JsResponse × List NetCall
  | _, 0 => (⟨0, []⟩, [])
  | attempt, fuel + 1 =>
    let call := NetCall.generatePost ⟨url, genReqBody prompt⟩
    match gen attempt with
    | .response status text =>
      if respOk status then
        (⟨200, [(keyAiAnswer, extractServer text)]⟩, [call])
      else if Nat.blt maxAttempts attempt then
        (⟨status, [(keyError, .str errGemini), (keyDetails, .str text)]⟩, [call])
      else
        let r := dispatchFrom maxAttempts url prompt gen (attempt + 1) fuel
        (r.1, call :: r.2)
    | .throwErr _ msg =>
      if Nat.blt maxAttempts attempt then
        (⟨504, [(keyError, .str errRetries), (keyDetails, .str msg)]⟩, [call])
      else
        let r := dispatchFrom maxAttempts url prompt gen (attempt + 1) fuel
        (r.1, call :: r.2)

/-- Truthiness of the destructured request fields (`none` is an absent
field, hence undefined and falsy). -/
def truthyOpt : Option JsValue → Bool
  | none => false
  | some v => truthy v

/-- The /analyze handler of src/server.js over oracles for the network:
validation, catalog fetch (retries = 2), selection, prompt and URL
construction, then the dispatch loop (maxAttempts = 2). The second
component is the full network-call trace. -/
def analyze (userData exerciseData : Option JsValue) (key : String)
    (catalogOutcomes : Nat → FetchOutcome) (genOutcomes : Nat → GenOutcome) :
    JsResponse × List NetCall :=
  if !truthyOpt userData || !truthyOpt exerciseData then
    (⟨400, [(keyError, .str errMissing)]⟩, [])
  else
    match userData, exerciseData with
    | some u, some e =>
      let fetched := getModels 2 catalogOutcomes
      let catCalls := List.replicate fetched.2 (NetCall.catalogGet (catalogUrl key))
      if fetched.1.isEmpty then (⟨500, [(keyError, .str errNoModels)]⟩, catCalls)
      else
        match jsFind fetched.1 with
        | none => (⟨500, [(keyError, .str errFailed), (keyDetails, .str tyErrMsg)]⟩, catCalls)
        | some none => (⟨500, [(keyError, .str errNoSuitable)]⟩, catCalls)
        | some (some m) =>
          let meth := jsMethodName m
          let url := apiUrl (jsTemplateStr (jsProp keyName m)) meth key
          let prompt := buildPrompt u e
          let r := dispatchFrom 2 url prompt genOutcomes 1 3
          (r.1, catCalls ++ r.2)
    | _, _ => (⟨400, [(keyError, .str errMissing)]⟩, [])

/-! ## Helper lemmas -/

/-- A successful outer parse with a non-null result enters the extraction
chain. -/
theorem extractServer_parsed (text : String) (data : JsValue)
    (h1 : jsonParse text = some data) (h2 : data ≠ .null) :
    extractServer text = srvExtract1 text data := by
  unfold extractServer
  rw [h1]
  cases data with
  | null => exact absurd rfl h2
  | bool b => rfl
  | num lex => rfl
  | str s => rfl
  | arr xs => rfl
  | obj fs => rfl

/-- A string fragment continues into the cleaning steps. -/
theorem srvExtract1_frag (text : String) (data : JsValue) (raw : String)
    (h : fragString data = some raw) :
    srvExtract1 text data = srvExtract2 text (jsTrim (stripFences raw.toList)) := by
  unfold srvExtract1
  rw [h]

/-! ## Concrete response bodies used by counterexamples and witnesses -/

def answerC7 : String := "Drink more water"
def bodyC7 : String := "\x7b\"candidates\":[\x7b\"content\":\x7b\"parts\":[\x7b\"text\":\"```json\\n\x7b\\\"analysis\\\":\\\"Drink more water\\\"\x7d\\n```\"\x7d]\x7d\x7d]\x7d"

def fragC1 : String := "\x7b\"analysis\": oops\x7d"
def bodyC1 : String := "\x7b\"candidates\":[\x7b\"content\":\x7b\"parts\":[\x7b\"text\":\"\x7b\\\"analysis\\\": oops\x7d\"\x7d]\x7d\x7d]\x7d"

/-- Parsed form of bodyC1. -/
def dataC1 : JsValue :=
  .obj [(keyCandidates, .arr [.obj [(keyContent, .obj [(keyParts,
    .arr [.obj [(keyText, .str fragC1)]])])]])]

def fragC6 : String := "\x7b\"analysis\":\"\"\x7d"
def bodyC6 : String := "\x7b\"candidates\":[\x7b\"content\":\x7b\"parts\":[\x7b\"text\":\"\x7b\\\"analysis\\\":\\\"\\\"\x7d\"\x7d]\x7d\x7d]\x7d"

def answerC6w : String := "ok"
def fragC6w : String := "\x7b\"analysis\":\"ok\"\x7d"
def bodyC6w : String := "\x7b\"candidates\":[\x7b\"content\":\x7b\"parts\":[\x7b\"text\":\"\x7b\\\"analysis\\\":\\\"ok\\\"\x7d\"\x7d]\x7d\x7d]\x7d"

/-- Parsed form of bodyC6w. -/
def dataC6w : JsValue :=
  .obj [(keyCandidates, .arr [.obj [(keyContent, .obj [(keyParts,
    .arr [.obj [(keyText, .str fragC6w)]])])]])]

/-- Parsed form of the brace substring of fragC6w. -/
def svC6w : JsValue := .obj [(keyAnalysis, .str answerC6w)]

def bodyEmptyObj : String := "\x7b\x7d"

/-! ## Claim theorems -/

/-- C1 counterexample: the fragment of bodyC1 is a brace-delimited
substring that fails to parse as JSON; the extractor returns the raw
outer body, which differs from the cleaned text (the fragment, unchanged
by fence-stripping and trimming). The claim that the cleaned text is
returned is therefore false. -/
theorem c1_counterexample :
    extractServer bodyC1 = .str bodyC1 ∧
    jsTrim (stripFences fragC1.toList) = fragC1.toList ∧
    jsonParse fragC1 = none ∧
    bodyC1 ≠ fragC1 := by
  refine ⟨rfl, rfl, rfl, ?_⟩
  decide

/-- C1 (amended): for every raw 2xx response body whose text fragment
contains a brace-delimited JSON-object substring that fails to parse as
JSON, the extraction returns the raw outer body (the surrounding catch
handles the inner parse failure), not the cleaned text. -/
theorem c1_inner_parse_failure_returns_raw (text : String) (data : JsValue)
    (raw : String) (sub : List Char)
    (h1 : jsonParse text = some data) (h2 : data ≠ .null)
    (h3 : fragString data = some raw)
    (h4 : braceMatch (jsTrim (stripFences raw.toList)) = some sub)
    (h5 : jsonParse (String.mk sub) = none) :
    extractServer text = .str text := by
  rw [extractServer_parsed text data h1 h2, srvExtract1_frag text data raw h3]
  simp only [srvExtract2, h4, h5]

/-- C1 witness: the amended theorem applied to bodyC1. -/
theorem c1_witness : extractServer bodyC1 = .str bodyC1 :=
  c1_inner_parse_failure_returns_raw bodyC1 dataC1 fragC1 fragC1.toList
    rfl (fun h => nomatch h) rfl rfl rfl

/-- C4 counterexample: the well-formed 2xx body without the candidates
path extracts to the empty string, so the result is not non-empty. -/
theorem c4_counterexample : extractServer bodyEmptyObj = .str "" := rfl

/-- C4 (amended): for every 2xx upstream response body the extraction is
total and never raises; when the nested candidates path is absent from
the parsed (non-null) body, the result is the empty string, which is a
best-effort but possibly empty result. -/
theorem c4_path_absent_yields_empty (text : String) (data : JsValue)
    (h1 : jsonParse text = some data) (h2 : data ≠ .null)
    (h3 : pathLookup data = none) :
    extractServer text = .str "" := by
  rw [extractServer_parsed text data h1 h2]
  have hfrag : fragString data = some "" := by
    unfold fragString
    rw [h3]
  rw [srvExtract1_frag text data "" hfrag]
  rfl

/-- C4 witness: the amended theorem applied to the empty-object body. -/
theorem c4_witness : extractServer bodyEmptyObj = .str "" :=
  c4_path_absent_yields_empty bodyEmptyObj (.obj []) rfl (fun h => nomatch h) rfl

/-- C6 counterexample: the fragment of bodyC6 parses as a JSON object in
which the analysis field is present (with the falsy empty-string value),
yet the extractor returns the cleaned text rather than the field value. -/
theorem c6_counterexample :
    extractServer bodyC6 = .str fragC6 ∧
    jsonParse fragC6 = some (.obj [(keyAnalysis, .str "")]) ∧
    fragC6 ≠ "" := by
  refine ⟨rfl, rfl, ?_⟩
  decide

/-- C6 (amended): when the first-brace-to-last-brace substring of the
cleaned text parses as a JSON object, the extraction returns the value of
the analysis field only when that value is truthy; when the field is
absent, or present with a falsy value (the `|| cleaned` fallback), it
returns the cleaned text. -/
theorem c6_analysis_field (text : String) (data : JsValue) (raw : String)
    (sub : List Char) (sv : JsValue)
    (h1 : jsonParse text = some data) (h2 : data ≠ .null)
    (h3 : fragString data = some raw)
    (h4 : braceMatch (jsTrim (stripFences raw.toList)) = some sub)
    (h5 : jsonParse (String.mk sub) = some sv) (h6 : sv ≠ .null) :
    (∀ av, jsProp keyAnalysis sv = some av → truthy av = true →
      extractServer text = av) ∧
    (∀ av, jsProp keyAnalysis sv = some av → truthy av = false →
      extractServer text = .str (String.mk (jsTrim (stripFences raw.toList)))) ∧
    (jsProp keyAnalysis sv = none →
      extractServer text = .str (String.mk (jsTrim (stripFences raw.toList)))) := by
  have hstep : srvExtract2 text (jsTrim (stripFences raw.toList)) =
      match jsProp keyAnalysis sv with
      | none => .str (String.mk (jsTrim (stripFences raw.toList)))
      | some av =>
        if truthy av then av else .str (String.mk (jsTrim (stripFences raw.toList))) := by
    simp only [srvExtract2, h4, h5]
  rw [extractServer_parsed text data h1 h2, srvExtract1_frag text data raw h3, hstep]
  refine ⟨fun av hav htr => ?_, fun av hav htr => ?_, fun hav => ?_⟩
  · simp only [hav, htr, if_true]
  · simp [hav, htr]
  · simp only [hav]

/-- C6 witness: the amended theorem applied to a body whose analysis field
holds the truthy string of answerC6w. -/
theorem c6_witness : extractServer bodyC6w = .str answerC6w :=
  (c6_analysis_field bodyC6w dataC6w fragC6w fragC6w.toList svC6w
    rfl (fun h => nomatch h) rfl rfl rfl (fun h => nomatch h)).1
    (.str answerC6w) rfl rfl

/-- C7: the well-formed upstream round-trip body extracts to exactly the
answer string, through fence-stripping, trimming, brace matching, and the
inner parse of the analysis field. -/
theorem c7_round_trip : extractServer bodyC7 = .str answerC7 := rfl

/-- C10: the response-extraction logic embedded from src/server.js and the
one embedded from src/unnamed/part_000 are extensionally equal. -/
theorem c10_extractors_agree : ∀ text : String, extractServer text = extractVariant text :=
  fun _ => rfl

/-- Support test `supportedGenerationMethods.includes("generateContent")`
on a descriptor, used to state the method-choice facts. -/
def supportsGC (m : JsValue) : Bool :=
  match m with
  | .obj fs =>
    match lookupField fs keySupported with
    | some (.arr xs) => xs.any (fun v => match v with | .str s => s == strGC | _ => false)
    | _ => false
  | _ => false

/-- The method name is generateContent exactly when the descriptor
advertises it, else generateText. -/
theorem jsMethodName_eq (m : JsValue) :
    jsMethodName m = if supportsGC m = true then strGC else strGT := by
  cases m with
  | null => rfl
  | bool b => rfl
  | num lex => rfl
  | str s => rfl
  | arr xs => rfl
  | obj fs =>
    cases h : lookupField fs keySupported with
    | none => simp [jsMethodName, supportsGC, h]
    | some v => cases v <;> simp [jsMethodName, supportsGC, h]

/-- A prefix of non-qualifying descriptors is skipped by the find. -/
theorem jsFind_append (pre rest : List JsValue)
    (hpre : ∀ x ∈ pre, jsQualifies x = some false) :
    jsFind (pre ++ rest) = jsFind rest := by
  induction pre with
  | nil => rfl
  | cons x xs ih =>
    have hx := hpre x (by simp)
    have hxs : ∀ y ∈ xs, jsQualifies y = some false := fun y hy => hpre y (by simp [hy])
    simp only [List.cons_append, jsFind, hx, List.append_eq, ih hxs]

/-- Descriptor supporting only generateText, listed before a
generateContent-capable one. -/
def mTextOnly : JsValue :=
  .obj [(keyName, .str strGT), (keySupported, .arr [.str strGT])]

/-- Descriptor supporting generateContent. -/
def mContent : JsValue :=
  .obj [(keyName, .str strGC), (keySupported, .arr [.str strGC])]

/-- C2 counterexample: the supplied list contains a descriptor whose
methods include generateContent (mContent), yet selection returns the
earlier generateText-only descriptor with method generateText, so the
selection does not return the generateContent descriptor with method
GenerateContent. -/
theorem c2_counterexample :
    selectModel [mTextOnly, mContent] = some (some (mTextOnly, strGT)) ∧
    supportsGC mContent = true ∧
    supportsGC mTextOnly = false ∧
    strGT ≠ strGC := by
  refine ⟨rfl, rfl, rfl, ?_⟩
  decide

/-- C2 (amended): selection scans the list as supplied and returns the
first descriptor supporting generateContent or generateText; the method
is generateContent exactly when that first qualifying descriptor
advertises it, and generateText otherwise. -/
theorem c2_first_match (pre post : List JsValue) (m : JsValue)
    (hpre : ∀ x ∈ pre, jsQualifies x = some false)
    (hm : jsQualifies m = some true) :
    selectModel (pre ++ m :: post) = some (some (m, jsMethodName m)) ∧
    (supportsGC m = true → jsMethodName m = strGC) ∧
    (supportsGC m = false → jsMethodName m = strGT) := by
  have h1 : jsFind (pre ++ m :: post) = some (some m) := by
    rw [jsFind_append pre (m :: post) hpre]
    simp only [jsFind, hm]
  refine ⟨?_, ?_, ?_⟩
  · unfold selectModel
    rw [h1]
  · intro h
    rw [jsMethodName_eq, h]
    simp
  · intro h
    rw [jsMethodName_eq, h]
    simp
/-- C2 witness: the amended theorem applied to a one-element list whose
descriptor advertises generateContent. -/
theorem c2_witness : selectModel ([] ++ mContent :: []) = some (some (mContent, strGC)) := by
  have h := c2_first_match [] [] mContent (fun x hx => nomatch hx) rfl
  rw [h.1, h.2.1 rfl]

/-- A catalog body lacks an array-typed models field when it does not
parse to a non-null value whose models property is an array. -/
def lacksModelsArray (body : String) : Bool :=
  match jsonParse body with
  | none => true
  | some .null => true
  | some data =>
    match jsProp keyModels data with
    | some (.arr _) => false
    | _ => true

/-- Failure condition of one catalog attempt as the claim states it: a
non-2xx status, or a 2xx body lacking an array-typed models field. -/
def catalogAttemptFails : FetchOutcome → Bool
  | .throwErr _ => false
  | .response status body => !respOk status || lacksModelsArray body

/-- An attempt meeting the claim's failure condition is a caught failed
attempt of getModels. -/
theorem catalogAttemptFails_none (o : FetchOutcome)
    (h : catalogAttemptFails o = true) : attemptModels o = none := by
  cases o with
  | throwErr msg => rfl
  | response status body =>
    simp only [catalogAttemptFails, Bool.or_eq_true, Bool.not_eq_true'] at h
    simp only [attemptModels]
    rcases h with h | h
    · simp [h]
    · simp only [lacksModelsArray] at h
      split
      next hok =>
        split at h
        next heq => simp [heq]
        next heq => simp [heq]
        next data hne heq =>
          split at h
          next items heq2 => exact absurd h (by simp)
          next x hne2 heq2 =>
            split
            next => rfl
            next v heq3 => cases v <;> simp_all [truthy]
      next hok => rfl

/-- When every remaining attempt fails, the loop runs through its whole
budget and returns the empty list, counting one fetch per iteration. -/
theorem getModelsAux_all_fail (outcomes : Nat → FetchOutcome) (retries : Nat) :
    ∀ fuel attempt, attempt + fuel = retries + 2 →
    (∀ i, attempt ≤ i → i ≤ retries + 1 → attemptModels (outcomes i) = none) →
    getModelsAux outcomes retries attempt fuel = ([], fuel) := by
  intro fuel
  induction fuel with
  | zero => intro attempt _ _; rfl
  | succ f ih =>
    intro attempt hsum hfail
    have hle : attempt ≤ retries + 1 := by omega
    have hnone : attemptModels (outcomes attempt) = none :=
      hfail attempt (le_refl attempt) hle
    simp only [getModelsAux, hnone]
    cases hb : Nat.blt retries attempt with
    | true =>
      rw [Nat.blt_eq] at hb
      have hf0 : f = 0 := by omega
      subst hf0
      rfl
    | false =>
      have hlt : ¬ retries < attempt := by
        rw [← Nat.blt_eq, hb]
        simp
      have hrec := ih (attempt + 1) (by omega)
        (fun i h1 h2 => hfail i (by omega) h2)
      simp [hrec]

/-- C3: for every retry budget and every sequence of catalog outcomes in
which each attempt yields a non-2xx status or a 2xx body lacking an
array-typed models field, getModels returns the empty list after issuing
exactly its full budget of attempts; the embedding is a total function,
so no exception reaches the caller. -/
theorem c3_all_fail_empty (retries : Nat) (outcomes : Nat → FetchOutcome)
    (h : ∀ i, 1 ≤ i → i ≤ retries + 1 → catalogAttemptFails (outcomes i) = true) :
    (getModels retries outcomes).1 = [] ∧
    (getModels retries outcomes).2 = retries + 1 := by
  have hrun := getModelsAux_all_fail outcomes retries (retries + 1) 1 (by omega)
    (fun i h1 h2 => catalogAttemptFails_none (outcomes i) (h i h1 h2))
  unfold getModels
  rw [hrun]
  exact ⟨rfl, rfl⟩

def msgBoom : String := "boom"

/-- Catalog outcome oracle answering HTTP 500 on every attempt. -/
def c3Outcomes : Nat → FetchOutcome := fun _ => .response 500 msgBoom

/-- C3 witness: the theorem applied to a budget of one retry with every
attempt answering 500. -/
theorem c3_witness :
    (getModels 1 c3Outcomes).1 = [] ∧ (getModels 1 c3Outcomes).2 = 2 :=
  c3_all_fail_empty 1 c3Outcomes (fun _ _ _ => rfl)

def urlX : String := "https://example.invalid/generate"
def promptX : String := "prompt"
def nameFetchErr : String := "FetchError"

/-- Generation oracle whose every attempt times out (AbortError). -/
def genAbortAll : Nat → GenOutcome := fun _ => .throwErr nameAbort msgBoom

/-- Generation oracle whose every attempt fails with an unclassified
transport error carrying the same message. -/
def genOtherAll : Nat → GenOutcome := fun _ => .throwErr nameFetchErr msgBoom

/-- C5 counterexample: a run whose final attempt times out and a run
whose final attempt is an unclassified transport failure produce exactly
the same response (status 504 with the same error body), although the
two exception categories differ, so the two failure categories are not
reported distinctly from each other. -/
theorem c5_counterexample :
    (dispatchFrom 2 urlX promptX genAbortAll 1 3).1 =
      (dispatchFrom 2 urlX promptX genOtherAll 1 3).1 ∧
    nameAbort ≠ nameFetchErr := by
  refine ⟨rfl, ?_⟩
  decide

/-- C5 (amended): after the retry budget is exhausted, a final thrown
attempt (a timeout AbortError or any other transport failure alike)
yields the single 504 retries-exhausted response, distinguished only by
the passthrough details message and not by failure category; a final
non-2xx response instead echoes the upstream status with a different
error text, so only the upstream-error category is reported distinctly. -/
theorem c5_final_failure_report (maxAttempts attempt fuel : Nat)
    (url prompt : String) (gen : Nat → GenOutcome)
    (hlast : maxAttempts < attempt) :
    (∀ name msg, gen attempt = .throwErr name msg →
      (dispatchFrom maxAttempts url prompt gen attempt (fuel + 1)).1 =
        ⟨504, [(keyError, .str errRetries), (keyDetails, .str msg)]⟩) ∧
    (∀ status text, gen attempt = .response status text → respOk status = false →
      (dispatchFrom maxAttempts url prompt gen attempt (fuel + 1)).1 =
        ⟨status, [(keyError, .str errGemini), (keyDetails, .str text)]⟩) ∧
    errRetries ≠ errGemini := by
  have hblt : Nat.blt maxAttempts attempt = true := by
    rw [Nat.blt_eq]
    exact hlast
  refine ⟨?_, ?_, by decide⟩
  · intro name msg hg
    simp only [dispatchFrom, hg, hblt, if_true]
  · intro status text hg hok
    simp only [dispatchFrom, hg, hok, hblt, Bool.false_eq_true, if_false, if_true]

/-- C5 witness: the amended theorem applied to the final attempt of the
all-timeout oracle. -/
theorem c5_witness :
    (dispatchFrom 2 urlX promptX genAbortAll 3 1).1 =
      ⟨504, [(keyError, .str errRetries), (keyDetails, .str msgBoom)]⟩ :=
  (c5_final_failure_report 2 3 0 urlX promptX genAbortAll (by omega)).1
    nameAbort msgBoom rfl

/-- C8: over every outcome sequence and any number of attempts, the
dispatch loop issues the identical generation request (same endpoint URL
and same serialized prompt body, built from the model, method and prompt
fixed before the loop) on every attempt: its request trace is a constant
replication of one request. -/
theorem c8_requests_constant (maxAttempts : Nat) (url prompt : String)
    (gen : Nat → GenOutcome) (attempt fuel : Nat) :
    (dispatchFrom maxAttempts url prompt gen attempt fuel).2 =
      List.replicate (dispatchFrom maxAttempts url prompt gen attempt fuel).2.length
        (NetCall.generatePost ⟨url, genReqBody prompt⟩) := by
  induction fuel generalizing attempt with
  | zero => rfl
  | succ f ih =>
    simp only [dispatchFrom]
    cases hg : gen attempt with
    | response status text =>
      cases hok : respOk status with
      | true => simp [hok]
      | false =>
        cases hb : Nat.blt maxAttempts attempt with
        | true => simp [hok, hb]
        | false =>
          simp only [hok, hb, Bool.false_eq_true, if_false, List.length_cons,
            List.replicate_succ, List.cons.injEq, true_and]
          exact ih (attempt + 1)
    | throwErr name msg =>
      cases hb : Nat.blt maxAttempts attempt with
      | true => simp [hb]
      | false =>
        simp only [hb, Bool.false_eq_true, if_false, List.length_cons,
          List.replicate_succ, List.cons.injEq, true_and]
        exact ih (attempt + 1)

/-- C9: for every analysis request in which userData or exerciseData is
missing, the handler answers 400 with the validation error immediately
and the network-call trace is empty: neither the catalog fetch nor any
generation dispatch is performed. -/
theorem c9_validation_no_network (userData exerciseData : Option JsValue)
    (key : String) (catalogOutcomes : Nat → FetchOutcome)
    (genOutcomes : Nat → GenOutcome)
    (h : userData = none ∨ exerciseData = none) :
    analyze userData exerciseData key catalogOutcomes genOutcomes =
      (⟨400, [(keyError, .str errMissing)]⟩, []) := by
  unfold analyze
  rcases h with h | h <;> subst h <;> simp [truthyOpt]

def keyX : String := "k"

/-- Catalog outcome oracle used by the C9 witness. -/
def c9Outcomes : Nat → FetchOutcome := fun _ => .response 500 msgBoom

/-- Generation outcome oracle used by the C9 witness. -/
def c9Gen : Nat → GenOutcome := fun _ => .throwErr nameAbort msgBoom

/-- C9 witness: the theorem applied to a request missing userData. -/
theorem c9_witness :
    analyze none (some (.obj [])) keyX c9Outcomes c9Gen =
      (⟨400, [(keyError, .str errMissing)]⟩, []) :=
  c9_validation_no_network none (some (.obj [])) keyX c9Outcomes c9Gen (Or.inl rfl)
